import Mathlib

/-!
# Pollen Swarm — verification of the specified behaviour

A shallow embedding of the Pollen Swarm repository: the React storefront
(basket reducer, interaction tracking, event payloads, data generators,
API client) is translated from the JavaScript sources, and the
recommendation engine (whose Python sources are documented but not present
in the repository snapshot) is modelled from the specification and design
documents.  All numeric computation is over `ℚ`; the exponential and
logarithmic kernels of the scoring engine are abstracted as bounded
function parameters, since none of the verified properties depend on
their pointwise values.
-/

/-- Catalog product as the engine's product table row (spec §3). -/
structure Product where
  id : String
  name : String
  category : String
  isDiscounted : Bool
  inStock : Bool
  price : Option ℚ
deriving DecidableEq, Repr

/-- One row of the transaction table (spec §3).  `date` is measured in
hours since an arbitrary epoch; the engine's day-based formulas divide
by 24. -/
structure Transaction where
  customerId : String
  productId : String
  date : ℚ
  quantity : ℕ
  category : String
deriving DecidableEq, Repr

/-- One row of the interaction/clickstream table (spec §3). -/
structure InteractionEvent where
  customerId : String
  sessionId : String
  eventId : String
  timestamp : ℚ
  eventType : String
  productId : Option String
deriving DecidableEq, Repr

/- ------------------------------------------------------------------
Storefront: interaction events sent by the React app
(`trackInteraction` call sites in CheckoutPage, ProductListPage,
ProductDetailPage, LoginPage, HomePage hero).
------------------------------------------------------------------ -/

/-- A line of a checkout purchase payload
(`items` array in CheckoutPage's `handleSubmit`). -/
structure PurchaseItem where
  productId : String
  quantity : ℤ
  price : ℚ
deriving DecidableEq, Repr

/-- An event object handed to `trackInteraction` by the storefront.
Fields that a given call site does not set are `none`, matching the
JavaScript object literals. -/
structure TrackedEvent where
  type : String
  eventType : Option String := none
  productId : Option String := none
  source : Option String := none
  query : Option String := none
  username : Option String := none
  total : Option ℚ := none
  items : Option (List PurchaseItem) := none
deriving DecidableEq, Repr

/-- ProductListPage `handleProductClick`. -/
def productListViewEvent (productId : String) : TrackedEvent :=
  { type := "view", eventType := some "view", productId := some productId,
    source := some "product_list" }

/-- ProductListPage `handleAdd` (after the login guard). -/
def productListAddEvent (productId : String) : TrackedEvent :=
  { type := "add_to_basket", eventType := some "add_to_cart",
    productId := some productId, source := some "product_list" }

/-- ProductDetailPage load effect. -/
def productDetailViewEvent (id : String) : TrackedEvent :=
  { type := "view", eventType := some "view", productId := some id,
    source := some "product_detail" }

/-- ProductDetailPage `handleAdd` (after the login guard). -/
def productDetailAddEvent (id : String) : TrackedEvent :=
  { type := "add_to_basket", eventType := some "add_to_cart",
    productId := some id, source := some "product_detail" }

/-- CheckoutPage `handleSubmit`. -/
def checkoutPurchaseEvent (total : ℚ) (items : List PurchaseItem) : TrackedEvent :=
  { type := "purchase", eventType := some "purchase",
    total := some total, items := some items }

/-- ProductListPage search (both the submit handler and the debounced
auto-search effect construct the same payload). -/
def searchEvent (term : String) : TrackedEvent :=
  { type := "search", query := some term }

/-- LoginPage `handleSubmit`. -/
def loginEvent (username : String) : TrackedEvent :=
  { type := "login", username := some username }

/-- HomePage hero panel. -/
def heroViewEvent (productId : String) : TrackedEvent :=
  { type := "hero_view", productId := some productId }

/-- The event-type vocabulary of the spec's InteractionEvent data model
(spec §3). -/
def specEventTypes : List String := ["view", "click", "add_to_cart"]

/- ------------------------------------------------------------------
Storefront: basket reducer (FrontEnd/src/context/BasketContext.jsx)
------------------------------------------------------------------ -/

/-- One entry of the basket's `items` object. -/
structure BasketItem where
  product : Product
  quantity : ℤ
deriving Repr

/-- Basket state: the JavaScript `items` object keyed by product id,
modelled by its lookup function. -/
structure BasketState where
  items : String → Option BasketItem

/-- Actions dispatched to the basket reducer. -/
inductive BasketAction where
  | add (product : Product) (quantity : ℤ)
  | update (productId : String) (quantity : ℤ)
  | clear

/-- The reducer of `BasketContext.jsx`, case by case:
`add` accumulates quantity onto an existing entry (or a fresh one with
quantity 0), `update` deletes the entry when the quantity is ≤ 0 and
otherwise overwrites the quantity of an existing entry, `clear` resets
to the initial state. -/
def reducer (state : BasketState) (action : BasketAction) : BasketState :=
  match action with
  | .add product quantity =>
      let existing := (state.items product.id).getD ⟨product, 0⟩
      ⟨fun k => if k = product.id then
          some ⟨product, existing.quantity + quantity⟩ else state.items k⟩
  | .update productId quantity =>
      if quantity ≤ 0 then
        ⟨fun k => if k = productId then none else state.items k⟩
      else
        match state.items productId with
        | none => state
        | some current =>
            ⟨fun k => if k = productId then
                some ⟨current.product, quantity⟩ else state.items k⟩
  | .clear => ⟨fun _ => none⟩

/-- BasketPage `handleQuantity`: clamps the requested quantity at 0
before dispatching `update`. -/
def handleQuantity (state : BasketState) (id : String) (qty : ℤ) : BasketState :=
  reducer state (.update id (max 0 qty))

/- ------------------------------------------------------------------
Storefront: interaction history (src/context/InteractionContext.jsx)
------------------------------------------------------------------ -/

/-- The payload stored in the `interactions` state: the tracked event
spread together with the user tag and a timestamp. -/
structure Payload where
  event : TrackedEvent
  user : String
  timestamp : ℤ
deriving DecidableEq, Repr

/-- Payload assembled inside `trackInteraction`. -/
def mkPayload (event : TrackedEvent) (user : String) (timestamp : ℤ) : Payload :=
  ⟨event, user, timestamp⟩

/-- The `trackInteraction` state update:
`setInteractions(prev => [payload, ...prev].slice(0, 50))`. -/
def trackInteraction (prev : List Payload) (event : TrackedEvent)
    (user : String) (timestamp : ℤ) : List Payload :=
  (mkPayload event user timestamp :: prev).take 50

/-- The `lastInteraction` value: `interactions[0] ?? null`. -/
def lastInteraction (interactions : List Payload) : Option Payload :=
  interactions.head?

/-- The `previousInteractions` of the profile returned by
`fetchUserProfile` in services/api.js: always exactly two seeded
entries (a day-old view of sourdough and a half-day-old search for
berries), normalised here to the stored payload shape. -/
def profileInteractions (now : ℤ) : List Payload :=
  [⟨{ type := "view", productId := some "sourdough" }, "", now - 86400000⟩,
   ⟨{ type := "search", query := some "berries" }, "", now - 43200000⟩]

/-- State transitions of the `interactions` state: `login` replaces the
history with the profile's seeded interactions, `logout` clears it, and
`trackInteraction` prepends and truncates. -/
inductive HistStep : List Payload → List Payload → Prop
  | login (s : List Payload) (now : ℤ) : HistStep s (profileInteractions now)
  | logout (s : List Payload) : HistStep s []
  | track (s : List Payload) (event : TrackedEvent) (user : String)
      (timestamp : ℤ) : HistStep s (trackInteraction s event user timestamp)

/- ------------------------------------------------------------------
FrontEnd/scripts/buildCustomerMap.js
------------------------------------------------------------------ -/

/-- The ten adjectives of the username pool. -/
def adjectives : List String :=
  ["citrus", "amber", "sunny", "fresh", "mellow",
   "zesty", "crisp", "breezy", "velvet", "brisk"]

/-- The ten nouns of the username pool. -/
def nouns : List String :=
  ["otter", "sparrow", "baker", "sprout", "harvest",
   "grove", "market", "orchard", "ridge", "meadow"]

/-- JS `String(n).padStart(width, "0")`. -/
def padZeros (width : ℕ) (s : String) : String :=
  if width ≤ s.length then s
  else String.mk (List.replicate (width - s.length) '0') ++ s

/-- The 100-entry `randomNamePool`: for each adjective i and noun j the
name `adj-noun-NN` where `NN` is `j+1` zero-padded to two digits. -/
def randomNamePool : List String :=
  adjectives.flatMap fun adj =>
    nouns.enum.map fun jn =>
      adj ++ "-" ++ jn.2 ++ "-" ++ padZeros 2 (toString (jn.1 + 1))

/-- One generated customer record. -/
structure CustomerEntry where
  id : String
  username : String
deriving DecidableEq, Repr

/-- Sequential customer id: `` `C${String(idx + 1).padStart(3, "0")}` ``. -/
def customerIdAt (idx : ℕ) : String :=
  "C" ++ padZeros 3 (toString (idx + 1))

/-- The `customers` array of buildCustomerMap.js: given the deduplicated,
sorted customer ids of the clickstream CSV, assign the idx-th id the
sequential customer id and the idx-th pool username; the script throws
when the pool is too small. -/
def buildCustomers (ids : List String) : Except String (List CustomerEntry) :=
  if randomNamePool.length < ids.length then
    .error "Not enough generated usernames for all customer ids"
  else
    .ok (ids.enum.map fun ix => ⟨customerIdAt ix.1, randomNamePool.getD ix.1 ""⟩)

/-- JS `Object.fromEntries` followed by property lookup: with duplicate
keys the later entry wins, so the lookup scans from the rear. -/
def jsLookup {α : Type} : List (String × α) → String → Option α
  | [], _ => none
  | (k, v) :: rest, key =>
      match jsLookup rest key with
      | some w => some w
      | none => if k = key then some v else none

/-- The `usernameToCustomerId` object of the generated module. -/
def usernameToCustomerId (customers : List CustomerEntry) (u : String) : Option String :=
  jsLookup (customers.map fun c => (c.username, c.id)) u

/-- The `customerIdToUsername` object of the generated module. -/
def customerIdToUsername (customers : List CustomerEntry) (i : String) : Option String :=
  jsLookup (customers.map fun c => (c.id, c.username)) i

/- ------------------------------------------------------------------
FrontEnd/scripts/csvToProducts.js
------------------------------------------------------------------ -/

/-- Record field access after `Object.fromEntries(headers.map((h, idx) =>
[h, cells[idx] ?? ""]))`: the value at the LAST occurrence of the header
name (later entries overwrite), with `""` when the row has no cell at
that index; `none` when the header is absent (JS `undefined`). -/
def lastIdxOf : List String → String → Option ℕ
  | [], _ => none
  | h :: t, name =>
      match lastIdxOf t name with
      | some i => some (i + 1)
      | none => if h = name then some 0 else none

/-- Value of `record[name]` for a parsed CSV row. -/
def fieldOf (headers cells : List String) (name : String) : Option String :=
  (lastIdxOf headers name).map fun i => cells.getD i ""

/-- JS truthiness of a string-valued expression: `undefined` and the
empty string are falsy. -/
def truthy : Option String → Bool
  | some s => s ≠ ""
  | none => false

/-- JS `a || b` on string-valued expressions. -/
def jsOr (a b : Option String) : Option String :=
  if truthy a then a else b

/-- Parse a decimal digit run to a natural number. -/
def digitsToNat (l : List Char) : ℕ :=
  l.foldl (fun acc c => acc * 10 + (c.toNat - '0'.toNat)) 0

/-- JS `Number.parseFloat` on the plain decimal literals that occur in the
catalog CSV (optional sign, digits, optional fraction); `none` models
`NaN`. -/
def parseDecimal (s : String) : Option ℚ :=
  let chars := s.toList
  let (sign, rest) :=
    match chars with
    | '-' :: t => ((-1 : ℚ), t)
    | t => ((1 : ℚ), t)
  let intPart := rest.takeWhile Char.isDigit
  let afterInt := rest.drop intPart.length
  if intPart.isEmpty then none
  else
    match afterInt with
    | '.' :: fracTail =>
        let fracPart := fracTail.takeWhile Char.isDigit
        some (sign * ((digitsToNat intPart : ℚ) +
          (digitsToNat fracPart : ℚ) / ((10 : ℚ) ^ fracPart.length)))
    | _ => some (sign * (digitsToNat intPart : ℚ))

/-- JS `Number.parseInt(s, 10)`: parse the leading digit run (after an
optional sign); `none` models `NaN`. -/
def parseIntJs (s : String) : Option ℤ :=
  let chars := s.toList
  let (sign, rest) :=
    match chars with
    | '-' :: t => ((-1 : ℤ), t)
    | t => ((1 : ℤ), t)
  let digits := rest.takeWhile Char.isDigit
  if digits.isEmpty then none else some (sign * (digitsToNat digits : ℤ))

/-- Collapse runs of `'-'` into a single `'-'`. -/
def collapseDashes : List Char → List Char
  | [] => []
  | c :: rest =>
      match collapseDashes rest with
      | [] => [c]
      | d :: tail => if c = '-' ∧ d = '-' then d :: tail else c :: d :: tail

/-- The `slugify` helper: lowercase, replace runs of non-alphanumeric characters by
a single dash, strip leading and trailing dashes. -/
def slugify (s : String) : String :=
  let lowered := s.toList.map Char.toLower
  let dashed := lowered.map fun c => if c.isLower ∨ c.isDigit then c else '-'
  let collapsed := collapseDashes dashed
  String.mk ((collapsed.dropWhile (· = '-')).reverse.dropWhile (· = '-') |>.reverse)

/-- A record of the generated `products.js` module.  `stock` is `none`
when `parseInt` yields `NaN`. -/
structure JsProduct where
  id : String
  name : String
  description : String
  brand : String
  category : String
  subCategory : String
  price : ℚ
  image : String
  stock : Option ℤ
deriving DecidableEq, Repr

/-- The row mapper of csvToProducts.js (`rows.map` body): a record is
produced for every non-blank row; absent cells default to the empty
string and unparsable numerics default as in the source
(`Number.parseFloat(record.price) || 0`). -/
def rowToProduct (headers cells : List String) : JsProduct :=
  let field := fieldOf headers cells
  let sku := jsOr (jsOr (field "sku_id") (field "id"))
      (some (slugify ((field "product_name").getD "")))
  { id := sku.getD ""
    name := (field "product_name").getD ""
    description := (field "description").getD ""
    brand := (field "brand").getD ""
    category := (field "category").getD ""
    subCategory := (field "sub_category").getD ""
    price := ((field "price").bind parseDecimal).getD 0
    image := (field "image_url").getD ""
    stock := parseIntJs ((jsOr (field "stock_quantity") (some "0")).getD "0") }

/-- Whitespace as `line.trim()` sees it (the whitespace characters
that can occur in the catalog CSV). -/
def isWs (c : Char) : Bool :=
  c = ' ' ∨ c = '\t' ∨ c = '\n' ∨ c = '\r'

/-- JS `cell.replace(/^"(.*)"$/, "$1")` applied by `splitCsvLine` to
each cell: strip one pair of surrounding double quotes. -/
def dequote (s : String) : String :=
  let cs := s.toList
  if 2 ≤ cs.length ∧ cs.head? = some '"' ∧ cs.getLast? = some '"' then
    String.mk ((cs.drop 1).dropLast)
  else s

/-- Whether a raw line is dropped by the script's
`filter((line) => line.trim())`.  A row here is the list of raw
comma-split cells of the line, so `line.trim()` is falsy exactly when
the line has no comma — a single raw cell — and that cell is all
whitespace; any comma (or any non-whitespace character) makes the
trimmed line non-empty, so such lines are kept even when every cell is
empty. -/
def blankLine (rawCells : List String) : Bool :=
  match rawCells with
  | [c] => c.toList.all isWs
  | _ => false

/-- The `products` array of csvToProducts.js: rows are the raw
comma-split cells of each line (commas inside quoted cells do not occur
in the catalog CSV); whitespace-only lines are dropped, and every other
line is dequoted cell-wise and mapped to a record. -/
def csvProducts (headers : List String) (rows : List (List String)) : List JsProduct :=
  (rows.filter fun rawCells => ¬ blankLine rawCells).map
    fun rawCells => rowToProduct headers (rawCells.map dequote)

/-- The header row of the catalog CSV
(`DIM_item_202511201338.csv`). -/
def catalogHeaders : List String :=
  ["sku_id", "product_name", "description", "brand", "category",
   "sub_category", "price", "image_url", "stock_quantity"]

/- ------------------------------------------------------------------
Recommendation engine (personalisation_algo).

The Python sources (scoring_engine.py, constraint_filter.py,
selector.py, main.py) are not present in the repository snapshot; the
definitions below are modelled from the specification (spec §4) and the
repository's DESIGN_DOCUMENT.md, which give the exact formulas.
------------------------------------------------------------------ -/

/-- Modelled from the spec: the transcendental kernels of
scoring_engine.py.  `decay` stands for x ↦ exp(−x) and `qlog` for
q ↦ ln(1 + q); the verified properties depend only on sign and
boundedness, captured by `Kern.Valid`. -/
structure Kern where
  decay : ℚ → ℚ
  qlog : ℕ → ℚ

/-- Nonnegativity everywhere, boundedness by 1 on nonnegative
arguments (true of x ↦ exp(−x)), and nonnegativity of q ↦ ln(1+q). -/
def Kern.Valid (κ : Kern) : Prop :=
  (∀ x, 0 ≤ κ.decay x) ∧ (∀ x, 0 ≤ x → κ.decay x ≤ 1) ∧ (∀ q, 0 ≤ κ.qlog q)

/-- The five scoring weights of the configuration document. -/
structure ScoringWeights where
  category_affinity : ℚ
  repurchase_likelihood : ℚ
  clickstream_intent : ℚ
  product_popularity : ℚ
  exploration : ℚ
deriving DecidableEq, Repr

/-- Sum of the five scoring weights. -/
def ScoringWeights.sum (w : ScoringWeights) : ℚ :=
  w.category_affinity + w.repurchase_likelihood + w.clickstream_intent +
    w.product_popularity + w.exploration

/-- Modelled from the spec: the configuration document (spec §6,
config/config.yaml of the design document). -/
structure Config where
  weights : ScoringWeights
  decay_days : ℚ
  expected_cycle_days : ℚ
  cycle_std_days : ℚ
  min_purchases : ℕ
  recency_weight : ℚ
  decay_hours : ℚ
  w_view : ℚ
  w_click : ℚ
  w_add_to_cart : ℚ
  customer_weight : ℚ
  frequency_weight : ℚ
  exclude_recent_purchases_days : ℚ
  exclude_discounted : Bool
  exclude_out_of_stock : Bool
  top_k : ℕ
  shown_decay_hours : ℚ
deriving DecidableEq, Repr

/-- Tolerance of the weight-sum validation. -/
def weightEpsilon : ℚ := 1 / 100

/-- Modelled from the spec: configuration loading validates that the
five scoring weights sum to 1.0 up to a small epsilon; a mismatch is a
fatal configuration error reported before any scoring runs. -/
def loadConfig (raw : Config) : Except String Config :=
  if |raw.weights.sum - 1| ≤ weightEpsilon then .ok raw
  else .error "scoring weights must sum to 1.0"

/-- Well-formedness of the per-component parameters assumed by the
bound proofs (all hold of the shipped config.yaml defaults). -/
def Config.Valid (cfg : Config) : Prop :=
  0 ≤ cfg.recency_weight ∧ cfg.recency_weight ≤ 1 ∧
  0 ≤ cfg.w_view ∧ 0 ≤ cfg.w_click ∧ 0 ≤ cfg.w_add_to_cart ∧
  0 ≤ cfg.customer_weight ∧ 0 ≤ cfg.frequency_weight ∧
  cfg.customer_weight + cfg.frequency_weight ≤ 1

/-- The customer's transactions. -/
def custTxns (txns : List Transaction) (c : String) : List Transaction :=
  txns.filter fun t => t.customerId = c

/-- Modelled from the spec: time-weighted category score —
Σ exp(−days_ago/decay_days) · ln(1 + quantity) over the customer's
purchases in the category. -/
def categoryScore (κ : Kern) (cfg : Config) (ctxns : List Transaction)
    (now : ℚ) (cat : String) : ℚ :=
  ((ctxns.filter fun t => t.category = cat).map fun t =>
    κ.decay ((now - t.date) / 24 / cfg.decay_days) * κ.qlog t.quantity).sum

/-- Maximum category score across the categories observed for the
customer (0 when there are none). -/
def maxCategoryScore (κ : Kern) (cfg : Config) (ctxns : List Transaction)
    (now : ℚ) : ℚ :=
  (((ctxns.map fun t => t.category).dedup).map
    (categoryScore κ cfg ctxns now)).foldr max 0

/-- Modelled from the spec: category-affinity component —
category score of the candidate's category over the maximum category
score, 0 when the customer has no purchases or the maximum is 0. -/
def categoryAffinity (κ : Kern) (cfg : Config) (txns : List Transaction)
    (c : String) (p : Product) (now : ℚ) : ℚ :=
  let ctxns := custTxns txns c
  let m := maxCategoryScore κ cfg ctxns now
  if m ≤ 0 then 0 else categoryScore κ cfg ctxns now p.category / m

/-- Stable ascending insertion into a sorted list. -/
def insertAsc (x : ℚ) : List ℚ → List ℚ
  | [] => [x]
  | y :: rest => if x < y then x :: y :: rest else y :: insertAsc x rest

/-- Stable ascending insertion sort. -/
def sortAsc : List ℚ → List ℚ
  | [] => []
  | x :: rest => insertAsc x (sortAsc rest)

/-- Purchase dates of one product by one customer, ascending. -/
def productDates (ctxns : List Transaction) (pid : String) : List ℚ :=
  sortAsc ((ctxns.filter fun t => t.productId = pid).map fun t => t.date)

/-- Consecutive differences of a list. -/
def cycleDeltas : List ℚ → List ℚ
  | a :: b :: rest => (b - a) :: cycleDeltas (b :: rest)
  | _ => []

/-- Modelled from the spec: repurchase-likelihood component — 0 for
products purchased fewer than `min_purchases` (or fewer than 2) times,
otherwise the Gaussian exp(−deviation²/(2·cycle_std²)) of the deviation
of days-since-last-purchase from the mean repurchase cycle. -/
def repurchaseLikelihood (κ : Kern) (cfg : Config) (txns : List Transaction)
    (c : String) (p : Product) (now : ℚ) : ℚ :=
  let ds := productDates (custTxns txns c) p.id
  if ds.length < max cfg.min_purchases 2 then 0
  else
    let avg_cycle := ((cycleDeltas ds).map (· / 24)).sum / ((ds.length : ℚ) - 1)
    let days_since_last := (now - ds.getLastD 0) / 24
    let deviation := |days_since_last - avg_cycle|
    κ.decay (deviation ^ 2 / (2 * cfg.cycle_std_days ^ 2))

/-- Configured weight of one clickstream event type (unknown types
weigh 0). -/
def eventWeight (cfg : Config) (ty : String) : ℚ :=
  if ty = "view" then cfg.w_view
  else if ty = "click" then cfg.w_click
  else if ty = "add_to_cart" then cfg.w_add_to_cart
  else 0

/-- Modelled from the spec: unnormalised clickstream score of one
product — Σ recency_weight · exp(−hours_ago/decay_hours) +
(1 − recency_weight) · event_weight over the customer's events
referencing the product. -/
def productIntentRaw (κ : Kern) (cfg : Config) (cevs : List InteractionEvent)
    (now : ℚ) (pid : String) : ℚ :=
  ((cevs.filter fun e => e.productId = some pid).map fun e =>
    cfg.recency_weight * κ.decay ((now - e.timestamp) / cfg.decay_hours) +
      (1 - cfg.recency_weight) * eventWeight cfg e.eventType).sum

/-- Modelled from the spec: clickstream-intent component — the
candidate's summed event score normalised by the maximum summed value
across all candidates, 0 when no event references any candidate. -/
def clickstreamIntent (κ : Kern) (cfg : Config) (evs : List InteractionEvent)
    (products : List Product) (c : String) (p : Product) (now : ℚ) : ℚ :=
  let cevs := evs.filter fun e => e.customerId = c
  let m := (products.map fun q => productIntentRaw κ cfg cevs now q.id).foldr max 0
  if m ≤ 0 then 0 else productIntentRaw κ cfg cevs now p.id / m

/-- Unique purchasing customers of a product. -/
def uniqueCustomers (txns : List Transaction) (pid : String) : ℕ :=
  (((txns.filter fun t => t.productId = pid).map fun t => t.customerId).dedup).length

/-- Total quantity sold of a product. -/
def totalQuantity (txns : List Transaction) (pid : String) : ℕ :=
  ((txns.filter fun t => t.productId = pid).map fun t => t.quantity).sum

/-- Modelled from the spec: product-popularity component —
customer_weight · (unique customers / max unique customers) +
frequency_weight · (total quantity / max total quantity), each ratio 0
when its catalog-wide maximum is 0. -/
def productPopularity (cfg : Config) (txns : List Transaction)
    (products : List Product) (p : Product) : ℚ :=
  let maxU := (products.map fun q => uniqueCustomers txns q.id).foldr max 0
  let maxQ := (products.map fun q => totalQuantity txns q.id).foldr max 0
  let customer_score := if maxU = 0 then 0 else (uniqueCustomers txns p.id : ℚ) / maxU
  let frequency_score := if maxQ = 0 then 0 else (totalQuantity txns p.id : ℚ) / maxQ
  cfg.customer_weight * customer_score + cfg.frequency_weight * frequency_score

/-- The five component names, in the output order of the design
document. -/
def componentNames : List String :=
  ["category_affinity", "repurchase_likelihood", "clickstream_intent",
   "product_popularity", "exploration"]

/-- Modelled from the spec: the ScoreBreakdown of one candidate — a
mapping from component name to score, assembled with all five named
components.  `rand` is the per-product uniform exploration draw. -/
def scoreBreakdown (κ : Kern) (cfg : Config) (txns : List Transaction)
    (evs : List InteractionEvent) (products : List Product)
    (rand : String → ℚ) (c : String) (p : Product) (now : ℚ) :
    List (String × ℚ) :=
  [("category_affinity", categoryAffinity κ cfg txns c p now),
   ("repurchase_likelihood", repurchaseLikelihood κ cfg txns c p now),
   ("clickstream_intent", clickstreamIntent κ cfg evs products c p now),
   ("product_popularity", productPopularity cfg txns products p),
   ("exploration", rand p.id)]

/-- Component lookup in a breakdown, defaulting to 0. -/
def componentOf (b : List (String × ℚ)) (name : String) : ℚ :=
  (b.lookup name).getD 0

/-- Modelled from the spec: final score — the configured weighted sum
of the five breakdown components. -/
def finalScore (w : ScoringWeights) (b : List (String × ℚ)) : ℚ :=
  w.category_affinity * componentOf b "category_affinity" +
  w.repurchase_likelihood * componentOf b "repurchase_likelihood" +
  w.clickstream_intent * componentOf b "clickstream_intent" +
  w.product_popularity * componentOf b "product_popularity" +
  w.exploration * componentOf b "exploration"

/- ------------------------------------------------------------------
Constraint filter and selector (modelled from spec §4.2–§4.3).
------------------------------------------------------------------ -/

/-- Whether the customer bought the product within
`exclude_recent_purchases_days` of now. -/
def recentlyPurchased (cfg : Config) (txns : List Transaction) (c : String)
    (pid : String) (now : ℚ) : Bool :=
  (custTxns txns c).any fun t =>
    t.productId = pid ∧ (now - t.date) / 24 ≤ cfg.exclude_recent_purchases_days

/-- Modelled from the spec: the constraint filter — order-preserving
removal of recently purchased products, discounted products (when the
toggle is on) and out-of-stock products (when the toggle is on). -/
def constraintFilter (cfg : Config) (txns : List Transaction) (c : String)
    (now : ℚ) (scored : List (Product × ℚ)) : List (Product × ℚ) :=
  scored.filter fun pq =>
    ¬ recentlyPurchased cfg txns c pq.1.id now ∧
    (cfg.exclude_discounted → pq.1.isDiscounted = false) ∧
    (cfg.exclude_out_of_stock → pq.1.inStock = true)

/-- One entry of a customer's ShownRecord. -/
structure ShownEntry where
  productId : String
  shownAt : ℚ
deriving DecidableEq, Repr

/-- Whether the product was shown to the customer within the selection
decay window. -/
def shownRecently (cfg : Config) (shown : List ShownEntry) (now : ℚ)
    (pid : String) : Bool :=
  shown.any fun e => e.productId = pid ∧ now - e.shownAt < cfg.shown_decay_hours

/-- Stable descending insertion by score: an element is placed before
the first candidate whose score does not exceed its own, so candidates
with equal scores keep their original order. -/
def insertDesc (x : Product × ℚ) : List (Product × ℚ) → List (Product × ℚ)
  | [] => [x]
  | y :: rest => if y.2 ≤ x.2 then x :: y :: rest else y :: insertDesc x rest

/-- Stable descending sort by final score (ties keep candidate
order). -/
def sortByScoreDesc : List (Product × ℚ) → List (Product × ℚ)
  | [] => []
  | x :: rest => insertDesc x (sortByScoreDesc rest)

/-- Selector step 1: top-K of the filtered candidates by score. -/
def topCands (cfg : Config) (scored : List (Product × ℚ)) : List (Product × ℚ) :=
  (sortByScoreDesc scored).take cfg.top_k

/-- Selector step 2: top-K minus the recently shown products. -/
def freshCands (cfg : Config) (shown : List ShownEntry)
    (scored : List (Product × ℚ)) (now : ℚ) : List (Product × ℚ) :=
  (topCands cfg scored).filter fun pq => ¬ shownRecently cfg shown now pq.1.id

/-- Cumulative search of weighted sampling: the index of the first
weight bucket containing `x`. -/
def cumFind : List ℚ → ℚ → ℕ
  | [], _ => 0
  | s :: rest, x => if x < s then 0 else cumFind rest (x - s) + 1

/-- Modelled from the spec: score-weighted sampling as a function of a
uniform draw r ∈ [0,1) — candidate i owns the probability mass
scoreᵢ/Σ scores; when the scores sum to 0 the draw degenerates to
uniform selection (no division happens). -/
def drawIndex (scores : List ℚ) (r : ℚ) : ℕ :=
  if scores.sum = 0 then
    min (scores.length - 1) (Rat.floor (r * scores.length)).toNat
  else cumFind scores (r * scores.sum)

/-- Modelled from the spec: selector steps 2–4 — drop recently shown
products from the top-K, falling back to the full top-K when that
empties the set; draw one candidate by score-weighted sampling; append
the selection to the ShownRecord before returning.  `none` exactly when
the filtered candidate set is empty. -/
def selectProduct (cfg : Config) (shown : List ShownEntry)
    (scored : List (Product × ℚ)) (now r : ℚ) :
    Option (Product × List ShownEntry) :=
  let fresh := freshCands cfg shown scored now
  let pool := if fresh.isEmpty then topCands cfg scored else fresh
  match pool with
  | [] => none
  | q :: rest =>
      let l := q :: rest
      let chosen := (l.getD (drawIndex (l.map fun pq => pq.2) r) q).1
      some (chosen, shown ++ [⟨chosen.id, now⟩])

/- ------------------------------------------------------------------
Orchestrator (modelled from spec §4.4) and Recommendation record.
------------------------------------------------------------------ -/

/-- The sole externally visible artifact of one invocation (spec §3,
output example of the design document). -/
structure Recommendation where
  customer_id : String
  recommended_product_id : String
  product_name : String
  product_category : String
  final_score : ℚ
  score_components : List (String × ℚ)
  rank : ℕ
  total_candidates : ℕ
  timestamp : ℚ
deriving DecidableEq, Repr

/-- Modelled from the spec: `recommend_product` of main.py — score
every catalog product, filter, select, assemble the Recommendation
(1-based rank by final score among the filtered set, candidate count
before top-K truncation) and return it with the updated ShownRecord;
an explicit `none` when no eligible product exists. -/
def recommend_product (κ : Kern) (cfg : Config) (products : List Product)
    (txns : List Transaction) (evs : List InteractionEvent)
    (rand : String → ℚ) (shown : List ShownEntry) (c : String) (now r : ℚ) :
    Option (Recommendation × List ShownEntry) :=
  let scored := products.map fun p =>
    (p, finalScore cfg.weights (scoreBreakdown κ cfg txns evs products rand c p now))
  let filtered := constraintFilter cfg txns c now scored
  match selectProduct cfg shown filtered now r with
  | none => none
  | some (p, shownNext) =>
      let b := scoreBreakdown κ cfg txns evs products rand c p now
      some ({ customer_id := c
              recommended_product_id := p.id
              product_name := p.name
              product_category := p.category
              final_score := finalScore cfg.weights b
              score_components := b
              rank := (sortByScoreDesc filtered).findIdx
                (fun pq => pq.1.id = p.id) + 1
              total_candidates := filtered.length
              timestamp := now }, shownNext)

/- ------------------------------------------------------------------
Network layer: the FastAPI endpoint (modelled from README.md: the
engine sources are absent) and the client `fetchRecommendation` of
FrontEnd/src/services/api.js.
------------------------------------------------------------------ -/

/-- Body of a `/recommend` HTTP response: a JSON recommendation payload
or plain text. -/
inductive RecoBody where
  | json (rec : Recommendation)
  | text (s : String)
deriving DecidableEq, Repr

/-- An HTTP response as seen by the client. -/
structure RecoResponse where
  ok : Bool
  status : ℕ
  body : RecoBody
deriving DecidableEq, Repr

/-- Modelled from the spec: the `POST /recommend` endpoint — "Returns a
recommendation payload or 404 if none" (README.md). -/
def recommendEndpoint (result : Option Recommendation) : RecoResponse :=
  match result with
  | some rec => ⟨true, 200, .json rec⟩
  | none => ⟨false, 404, .text "No recommendation available"⟩

/-- The text of a response body (`resp.text()`). -/
def RecoBody.asText : RecoBody → String
  | .json _ => "json"
  | .text s => s

/-- The `fetchRecommendation` client of services/api.js: on a non-ok response it
throws `Recommendation API failed (status): detail`; on an ok response
it returns `resp.json()` (whose failure on a non-JSON body is the
`.text` error branch). -/
def fetchRecommendation (resp : RecoResponse) : Except String Recommendation :=
  if resp.ok then
    match resp.body with
    | .json rec => .ok rec
    | .text s => .error s
  else
    .error ("Recommendation API failed (" ++ toString resp.status ++ "): " ++
      resp.body.asText)

/- ------------------------------------------------------------------
Concrete fixtures used to instantiate the theorems below.
------------------------------------------------------------------ -/

/-- A valid kernel instance (any decay function with values in [0,1]
qualifies; the engine's exp(−x) is one such). -/
def kern0 : Kern := ⟨fun _ => 1 / 2, fun q => (q : ℚ)⟩

/-- The shipped default scoring weights (config.yaml of the design
document): 0.30 / 0.25 / 0.25 / 0.10 / 0.10. -/
def weights0 : ScoringWeights := ⟨3/10, 1/4, 1/4, 1/10, 1/10⟩

/-- The shipped default configuration. -/
def cfg0 : Config :=
  { weights := weights0, decay_days := 90, expected_cycle_days := 14,
    cycle_std_days := 7, min_purchases := 2, recency_weight := 7/10,
    decay_hours := 24, w_view := 3/10, w_click := 1/2, w_add_to_cart := 1,
    customer_weight := 3/5, frequency_weight := 2/5,
    exclude_recent_purchases_days := 14, exclude_discounted := true,
    exclude_out_of_stock := true, top_k := 20, shown_decay_hours := 24 }

/-- Sample in-stock, non-discounted product. -/
def prodA : Product := ⟨"A", "Apple", "produce", false, true, none⟩

/-- Second sample product. -/
def prodB : Product := ⟨"B", "Bread", "bakery", false, true, none⟩

/-- A scored candidate list for the selector fixtures. -/
def scoredW : List (Product × ℚ) := [(prodA, 1/2), (prodB, 1/4)]

/-- Shown record after the first fixture selection. -/
def shownW1 : List ShownEntry := [⟨"A", 0⟩]

/-- Score list of the spec's statistical sampling example
([0.9, 0.05, 0.05]). -/
def scoresW : List ℚ := [9/10, 1/20, 1/20]

/-- Placeholder record for `headD`. -/
def emptyJsProduct : JsProduct := ⟨"", "", "", "", "", "", 0, "", none⟩

/-- A complete 9-cell catalog row. -/
def row9 : List String :=
  ["P1", "Organic Milk 1L", "Fresh milk", "Meadow", "dairy", "milk",
   "3.99", "", "12"]

/-- A basket holding two units of the sample product. -/
def basket0 : BasketState :=
  ⟨fun k => if k = "A" then some ⟨prodA, 2⟩ else none⟩

/-- The customer map generated for three distinct clickstream ids. -/
def custW : List CustomerEntry :=
  [⟨"C001", "citrus-otter-01"⟩, ⟨"C002", "citrus-sparrow-02"⟩,
   ⟨"C003", "citrus-baker-03"⟩]

/-- The event types actually emitted with an explicit `eventType` field
by the storefront. -/
def sentEventTypes : List String := ["view", "add_to_cart", "purchase"]

/-- The header names csvToProducts.js reads from a record. -/
def usedFieldNames : List String :=
  ["sku_id", "id", "product_name", "description", "brand", "category",
   "sub_category", "price", "image_url", "stock_quantity"]

/- ------------------------------------------------------------------
Shared helper lemmas.
------------------------------------------------------------------ -/

theorem init_le_foldr_max {α : Type} [LinearOrder α] (b : α) (l : List α) :
    b ≤ l.foldr max b := by
  induction l with
  | nil => exact le_refl b
  | cons x rest ih => exact le_trans ih (le_max_right x (rest.foldr max b))

theorem mem_le_foldr_max {α : Type} [LinearOrder α] {x : α} {l : List α}
    (b : α) (h : x ∈ l) : x ≤ l.foldr max b := by
  induction l with
  | nil => cases h
  | cons y rest ih =>
      rcases List.mem_cons.mp h with rfl | hmem
      · exact le_max_left x (rest.foldr max b)
      · exact le_trans (ih hmem) (le_max_right y (rest.foldr max b))

theorem foldr_max_le {α : Type} [LinearOrder α] {c : α} {l : List α} (b : α)
    (hb : b ≤ c) (h : ∀ x ∈ l, x ≤ c) : l.foldr max b ≤ c := by
  induction l with
  | nil => exact hb
  | cons x rest ih =>
      exact max_le (h x (List.mem_cons_self x rest))
        (ih fun y hy => h y (List.mem_cons_of_mem x hy))

theorem getD_mem_of_default_mem {α : Type} {l : List α} {d : α} (hd : d ∈ l)
    (i : ℕ) : l.getD i d ∈ l := by
  rcases h : l[i]? with _ | x
  · simpa [List.getD, h] using hd
  · have hi : i < l.length := by
      by_contra hge
      rw [List.getElem?_eq_none (Nat.le_of_not_lt hge)] at h
      cases h
    rw [List.getElem?_eq_getElem hi] at h
    cases h
    simp [List.getD, List.getElem?_eq_getElem hi, List.getElem_mem hi]

/- ------------------------------------------------------------------
C7 — storefront interaction event types.
------------------------------------------------------------------ -/

/-- C7 counterexample: the checkout `handleSubmit` event is sent with
event type "purchase", which is not in the spec's set
{view, click, add_to_cart}. -/
theorem checkout_event_type_outside_spec_set :
    (checkoutPurchaseEvent 0 []).eventType = some "purchase" ∧
    "purchase" ∉ specEventTypes := by
  exact ⟨rfl, by decide⟩

/-- C7 (amended): every storefront event that carries an explicit
event type uses one of {view, add_to_cart, purchase}; the list/detail
view events carry "view", the add-to-basket events carry "add_to_cart",
the checkout event carries "purchase" (outside the spec's set); the
search, login and hero events carry no event type at all, and "click"
is never sent. -/
theorem storefront_event_types (pid did term username : String) (total : ℚ)
    (items : List PurchaseItem) :
    (productListViewEvent pid).eventType = some "view" ∧
    (productDetailViewEvent did).eventType = some "view" ∧
    (productListAddEvent pid).eventType = some "add_to_cart" ∧
    (productDetailAddEvent did).eventType = some "add_to_cart" ∧
    (checkoutPurchaseEvent total items).eventType = some "purchase" ∧
    (searchEvent term).eventType = none ∧
    (loginEvent username).eventType = none ∧
    (heroViewEvent pid).eventType = none ∧
    "view" ∈ sentEventTypes ∧ "add_to_cart" ∈ sentEventTypes ∧
    "purchase" ∈ sentEventTypes ∧ "purchase" ∉ specEventTypes ∧
    "click" ∉ sentEventTypes := by
  refine ⟨rfl, rfl, rfl, rfl, rfl, rfl, rfl, rfl, ?_, ?_, ?_, ?_, ?_⟩ <;> decide

/- ------------------------------------------------------------------
C8 — basket reducer update semantics and frame property.
------------------------------------------------------------------ -/

/-- C8: an `update` with quantity ≤ 0 removes the product's entry; an
`update` with positive quantity on a present product sets its quantity
to exactly the given value; every other product's entry is unchanged in
both cases. -/
theorem basket_update_semantics (s : BasketState) (pid : String) (q : ℤ) :
    (q ≤ 0 → (reducer s (.update pid q)).items pid = none) ∧
    (0 < q → ∀ cur, s.items pid = some cur →
      (reducer s (.update pid q)).items pid = some ⟨cur.product, q⟩) ∧
    (∀ k, k ≠ pid → (reducer s (.update pid q)).items k = s.items k) := by
  refine ⟨fun hq => ?_, fun hq cur hcur => ?_, fun k hk => ?_⟩
  · simp [reducer, hq]
  · simp [reducer, hcur, not_le.mpr hq]
  · by_cases hq : q ≤ 0
    · simp [reducer, hq, hk]
    · rcases hcur : s.items pid with _ | cur
      · simp [reducer, hq, hcur]
      · simp [reducer, hq, hcur, hk]

/-- C8 witness at a concrete basket containing two units of product
"A". -/
theorem basket_update_semantics_witness :
    (reducer basket0 (.update "A" 5)).items "A" = some ⟨prodA, 5⟩ ∧
    (reducer basket0 (.update "A" 0)).items "A" = none ∧
    (reducer basket0 (.update "A" 5)).items "B" = basket0.items "B" := by
  refine ⟨(basket_update_semantics basket0 "A" 5).2.1 (by norm_num)
      ⟨prodA, 2⟩ (by simp [basket0]),
    (basket_update_semantics basket0 "A" 0).1 (by norm_num),
    (basket_update_semantics basket0 "A" 5).2.2 "B" (by decide)⟩

/- ------------------------------------------------------------------
C9 — interaction history bound and ordering.
------------------------------------------------------------------ -/

/-- C9: `trackInteraction` prepends the new payload and truncates to
the 50 most recent, so the stored history never exceeds 50 entries in
any state reachable from the initial empty history through login,
logout and tracking; `lastInteraction` is exactly the most recently
recorded payload, and `none` on the empty history. -/
theorem interaction_history_invariant :
    (∀ (prev : List Payload) (e : TrackedEvent) (u : String) (t : ℤ),
      trackInteraction prev e u t = mkPayload e u t :: prev.take 49 ∧
      (trackInteraction prev e u t).length ≤ 50 ∧
      lastInteraction (trackInteraction prev e u t) = some (mkPayload e u t)) ∧
    lastInteraction [] = none ∧
    (∀ s : List Payload, Relation.ReflTransGen HistStep [] s →
      s.length ≤ 50) := by
  refine ⟨fun prev e u t => ⟨?_, ?_, ?_⟩, rfl, fun s h => ?_⟩
  · simp [trackInteraction, List.take_succ_cons]
  · simp only [trackInteraction, List.length_take]
    exact Nat.min_le_left _ _
  · simp [trackInteraction, lastInteraction, List.take_succ_cons]
  · induction h with
    | refl => simp
    | tail _ step _ =>
        cases step with
        | login now => simp [profileInteractions]
        | logout => simp
        | track e u t =>
            simp only [trackInteraction, List.length_take]
            exact Nat.min_le_left _ _

/-- C9 witness: tracking one event on the empty history. -/
theorem interaction_history_invariant_witness :
    trackInteraction [] (searchEvent "tea") "u@example.com" 5 =
      [mkPayload (searchEvent "tea") "u@example.com" 5] ∧
    lastInteraction (trackInteraction [] (searchEvent "tea") "u@example.com" 5) =
      some (mkPayload (searchEvent "tea") "u@example.com" 5) ∧
    ([] : List Payload).length ≤ 50 := by
  refine ⟨?_, ?_, ?_⟩
  · simpa using (interaction_history_invariant.1 [] (searchEvent "tea")
      "u@example.com" 5).1
  · exact (interaction_history_invariant.1 [] (searchEvent "tea")
      "u@example.com" 5).2.2
  · exact interaction_history_invariant.2.2 [] Relation.ReflTransGen.refl

/- ------------------------------------------------------------------
C5 — network-facing recommendation entry point.
------------------------------------------------------------------ -/

/-- C5 counterexample: when no eligible product exists the backend
answers 404 and the client `fetchRecommendation` surfaces it as a
thrown failure, not as an explicit absence value. -/
theorem fetch_throws_on_not_found :
    fetchRecommendation (recommendEndpoint none) =
      Except.error "Recommendation API failed (404): No recommendation available" :=
  rfl

/-- C5 (amended): the `/recommend` round trip delivers the complete
record whenever an eligible product exists; when none exists, the
backend's explicit 404 "not found" signal reaches the caller of
`fetchRecommendation` as a thrown error carrying the status, not as an
explicit absence value. -/
theorem recommend_entry_point_behaviour :
    (∀ rec : Recommendation,
      fetchRecommendation (recommendEndpoint (some rec)) = Except.ok rec) ∧
    fetchRecommendation (recommendEndpoint none) =
      Except.error "Recommendation API failed (404): No recommendation available" :=
  ⟨fun _ => rfl, rfl⟩

/- ------------------------------------------------------------------
C6 — CSV loader column handling.
------------------------------------------------------------------ -/

theorem lastIdxOf_eq_none_of_not_mem {l : List String} {n : String}
    (h : n ∉ l) : lastIdxOf l n = none := by
  induction l with
  | nil => rfl
  | cons x rest ih =>
      have hx : x ≠ n := fun he => h (he ▸ List.mem_cons_self x rest)
      have hrest : n ∉ rest := fun hm => h (List.mem_cons_of_mem x hm)
      simp [lastIdxOf, ih hrest, hx]

theorem lastIdxOf_append_of_not_mem {e : List String} {n : String}
    (l : List String) (h : n ∉ e) :
    lastIdxOf (l ++ e) n = lastIdxOf l n := by
  induction l with
  | nil => simp [lastIdxOf_eq_none_of_not_mem h, lastIdxOf]
  | cons x rest ih => simp [lastIdxOf, ih]

theorem lastIdxOf_lt_length {l : List String} {n : String} {i : ℕ}
    (h : lastIdxOf l n = some i) : i < l.length := by
  induction l generalizing i with
  | nil => cases h
  | cons x rest ih =>
      rcases hr : lastIdxOf rest n with _ | j
      · rw [lastIdxOf, hr] at h
        by_cases hx : x = n
        · simp [hx] at h
          simp [← h]
        · simp [hx] at h
      · rw [lastIdxOf, hr] at h
        cases h
        exact Nat.succ_lt_succ (ih hr)

theorem fieldOf_append {headers cells extraH extraC : List String}
    {n : String} (hn : n ∉ extraH) (hlen : cells.length = headers.length) :
    fieldOf (headers ++ extraH) (cells ++ extraC) n = fieldOf headers cells n := by
  unfold fieldOf
  rw [lastIdxOf_append_of_not_mem headers hn]
  rcases h : lastIdxOf headers n with _ | i
  · rfl
  · have hi : i < cells.length := hlen ▸ lastIdxOf_lt_length h
    simp [List.getD, List.getElem?_append_left hi]

/-- C6 counterexample: a row carrying only its `sku_id` cell (every
required column after it missing) is not skipped by the loader — it is
loaded as a record whose name is the empty string; even the comma-only
line (every cell empty) is loaded as an all-default record, while a
whitespace-only line is the one case that is dropped. -/
theorem missing_column_row_not_skipped :
    (csvProducts catalogHeaders [["P1"]]).length = 1 ∧
    ((csvProducts catalogHeaders [["P1"]]).headD emptyJsProduct).name = "" ∧
    (csvProducts catalogHeaders [["", ""]]).length = 1 ∧
    csvProducts catalogHeaders [["  "]] = [] := by
  exact ⟨rfl, rfl, rfl, rfl⟩

/-- C6 (amended): the loader tolerates surplus columns — appending
unknown columns to the header and to a well-formed row leaves the
parsed record unchanged — but a row with missing required cells is
neither reported nor skipped: every line that is not whitespace-only
produces a record, with each missing cell defaulting to the empty
string. -/
theorem loader_column_handling :
    (∀ headers cells extraH extraC : List String,
      cells.length = headers.length →
      (∀ n ∈ usedFieldNames, n ∉ extraH) →
      rowToProduct (headers ++ extraH) (cells ++ extraC) =
        rowToProduct headers cells) ∧
    (∀ (headers : List String) (rows : List (List String))
        (cells : List String), cells ∈ rows → blankLine cells = false →
      rowToProduct headers (cells.map dequote) ∈ csvProducts headers rows) ∧
    (∀ (headers cells : List String) (n : String) (i : ℕ),
      lastIdxOf headers n = some i → cells.length ≤ i →
      fieldOf headers cells n = some "") := by
  refine ⟨fun headers cells extraH extraC hlen hext => ?_,
    fun headers rows cells hmem hblank => ?_,
    fun headers cells n i hidx hshort => ?_⟩
  · have h0 := @fieldOf_append headers cells extraH extraC
      "sku_id" (hext "sku_id" (by decide)) hlen
    have h1 := @fieldOf_append headers cells extraH extraC
      "id" (hext "id" (by decide)) hlen
    have h2 := @fieldOf_append headers cells extraH extraC
      "product_name" (hext "product_name" (by decide)) hlen
    have h3 := @fieldOf_append headers cells extraH extraC
      "description" (hext "description" (by decide)) hlen
    have h4 := @fieldOf_append headers cells extraH extraC
      "brand" (hext "brand" (by decide)) hlen
    have h5 := @fieldOf_append headers cells extraH extraC
      "category" (hext "category" (by decide)) hlen
    have h6 := @fieldOf_append headers cells extraH extraC
      "sub_category" (hext "sub_category" (by decide)) hlen
    have h7 := @fieldOf_append headers cells extraH extraC
      "price" (hext "price" (by decide)) hlen
    have h8 := @fieldOf_append headers cells extraH extraC
      "image_url" (hext "image_url" (by decide)) hlen
    have h9 := @fieldOf_append headers cells extraH extraC
      "stock_quantity" (hext "stock_quantity" (by decide)) hlen
    simp [rowToProduct, h0, h1, h2, h3, h4, h5, h6, h7, h8, h9]
  · unfold csvProducts
    exact List.mem_map_of_mem _ (List.mem_filter.mpr ⟨hmem, by simp [hblank]⟩)
  · unfold fieldOf
    rw [hidx]
    simp [List.getD, List.getElem?_eq_none hshort]

/-- C6 witness: surplus column "season" is ignored on the complete
fixture row, and the row of the counterexample still yields its
record, with the absent `product_name` cell defaulting to "". -/
theorem loader_column_handling_witness :
    rowToProduct (catalogHeaders ++ ["season"]) (row9 ++ ["winter"]) =
      rowToProduct catalogHeaders row9 ∧
    rowToProduct catalogHeaders (["P1"].map dequote) ∈
      csvProducts catalogHeaders [["P1"]] ∧
    fieldOf catalogHeaders ["P1"] "product_name" = some "" := by
  refine ⟨loader_column_handling.1 catalogHeaders row9 ["season"] ["winter"]
      (by decide) (by decide),
    loader_column_handling.2.1 catalogHeaders [["P1"]] ["P1"]
      (by decide) (by decide),
    loader_column_handling.2.2 catalogHeaders ["P1"] "product_name" 1
      (by decide) (by decide)⟩

/- ------------------------------------------------------------------
C10 — generated customer mapping is a bijection.
------------------------------------------------------------------ -/

theorem jsLookup_eq_none_of_not_mem {α : Type} {l : List (String × α)}
    {k : String} (h : k ∉ l.map Prod.fst) : jsLookup l k = none := by
  induction l with
  | nil => rfl
  | cons p rest ih =>
      rw [List.map_cons] at h
      have h1 : k ≠ p.1 := fun he => h (he ▸ List.mem_cons_self _ _)
      have h2 : k ∉ rest.map Prod.fst := fun hm => h (List.mem_cons_of_mem _ hm)
      cases p with
      | mk k1 v1 => simp [jsLookup, ih h2, Ne.symm h1]

theorem jsLookup_eq_of_nodup {α : Type} {l : List (String × α)} {k : String}
    {v : α} (hnd : (l.map Prod.fst).Nodup) (hmem : (k, v) ∈ l) :
    jsLookup l k = some v := by
  induction l with
  | nil => cases hmem
  | cons p rest ih =>
      cases p with
      | mk k1 v1 =>
        rw [List.map_cons, List.nodup_cons] at hnd
        rcases List.mem_cons.mp hmem with heq | hmem2
        · injection heq with e1 e2
          subst e1; subst e2
          simp [jsLookup, jsLookup_eq_none_of_not_mem hnd.1]
        · simp [jsLookup, ih hnd.2 hmem2]

theorem range_map_getD {α : Type} (l : List α) (d : α) (n : ℕ)
    (hn : n ≤ l.length) :
    (List.range n).map (fun i => l.getD i d) = l.take n := by
  apply List.ext_getElem
  · simp [Nat.min_eq_left hn]
  · intro i h1 h2
    rw [List.getElem_map, List.getElem_range, List.getElem_take]
    have hi : i < l.length := by
      simp at h1
      omega
    rw [List.getD_eq_getElem l d hi]

/-- C10: whenever buildCustomerMap.js succeeds, the generated customers
carry the pairwise-distinct sequential ids C001..C<n> and
pairwise-distinct pool usernames, and the two generated objects are
mutually inverse: looking a customer's username up in
`usernameToCustomerId` yields its id and vice versa, so each
composition is the identity on the generated entries; with more
distinct customer ids than the 100-name pool the script throws. -/
theorem customer_map_bijection :
    (∀ ids cs, buildCustomers ids = .ok cs →
      cs.length = ids.length ∧
      cs.map (fun c => c.id) = (List.range ids.length).map customerIdAt ∧
      (cs.map (fun c => c.id)).Nodup ∧
      (cs.map (fun c => c.username)).Nodup ∧
      (∀ c ∈ cs,
        usernameToCustomerId cs c.username = some c.id ∧
        customerIdToUsername cs c.id = some c.username ∧
        (usernameToCustomerId cs c.username).bind (customerIdToUsername cs) =
          some c.username ∧
        (customerIdToUsername cs c.id).bind (usernameToCustomerId cs) =
          some c.id)) ∧
    (∀ ids, randomNamePool.length < ids.length →
      buildCustomers ids =
        .error "Not enough generated usernames for all customer ids") := by
  have hpool : randomNamePool.length = 100 := by decide
  constructor
  · intro ids cs hok
    unfold buildCustomers at hok
    split at hok
    · cases hok
    · next hge =>
      have hn : ids.length ≤ 100 := by rw [hpool] at hge; omega
      cases hok
      have hA : (ids.enum.map fun ix =>
          (⟨customerIdAt ix.1, randomNamePool.getD ix.1 ""⟩ : CustomerEntry)).map
            (fun c => c.id) = (List.range ids.length).map customerIdAt := by
        rw [List.map_map, ← List.enum_map_fst ids, List.map_map]
        rfl
      have hB : (ids.enum.map fun ix =>
          (⟨customerIdAt ix.1, randomNamePool.getD ix.1 ""⟩ : CustomerEntry)).map
            (fun c => c.username) = randomNamePool.take ids.length := by
        rw [List.map_map, ← range_map_getD randomNamePool "" ids.length
          (by rw [hpool]; exact hn), ← List.enum_map_fst ids, List.map_map]
        rfl
      have hrange : List.range ids.length =
          List.take ids.length (List.range 100) := by
        rw [List.take_range, Nat.min_eq_left hn]
      have hIdNodup : ((ids.enum.map fun ix =>
          (⟨customerIdAt ix.1, randomNamePool.getD ix.1 ""⟩ : CustomerEntry)).map
            (fun c => c.id)).Nodup := by
        rw [hA, hrange, List.map_take]
        exact List.Nodup.sublist (List.take_sublist _ _)
          (by decide : ((List.range 100).map customerIdAt).Nodup)
      have hUserNodup : ((ids.enum.map fun ix =>
          (⟨customerIdAt ix.1, randomNamePool.getD ix.1 ""⟩ : CustomerEntry)).map
            (fun c => c.username)).Nodup := by
        rw [hB]
        exact List.Nodup.sublist (List.take_sublist _ _)
          (by decide : randomNamePool.Nodup)
      refine ⟨by simp, hA, hIdNodup, hUserNodup, fun c hc => ?_⟩
      have hu : usernameToCustomerId
          (ids.enum.map fun ix =>
            (⟨customerIdAt ix.1, randomNamePool.getD ix.1 ""⟩ : CustomerEntry))
          c.username = some c.id := by
        apply jsLookup_eq_of_nodup
        · rw [List.map_map]
          exact hUserNodup
        · exact List.mem_map_of_mem _ hc
      have hv : customerIdToUsername
          (ids.enum.map fun ix =>
            (⟨customerIdAt ix.1, randomNamePool.getD ix.1 ""⟩ : CustomerEntry))
          c.id = some c.username := by
        apply jsLookup_eq_of_nodup
        · rw [List.map_map]
          exact hIdNodup
        · exact List.mem_map_of_mem _ hc
      exact ⟨hu, hv, by rw [hu]; simpa using hv, by rw [hv]; simpa using hu⟩
  · intro ids hlt
    unfold buildCustomers
    rw [if_pos hlt]

/-- C10 witness: the map generated for the three distinct clickstream
ids 5, 7, 9. -/
theorem customer_map_bijection_witness :
    buildCustomers ["5", "7", "9"] = .ok custW ∧
    usernameToCustomerId custW "citrus-sparrow-02" = some "C002" ∧
    customerIdToUsername custW "C002" = some "citrus-sparrow-02" := by
  have hok : buildCustomers ["5", "7", "9"] = .ok custW := rfl
  have h := (customer_map_bijection.1 ["5", "7", "9"] custW hok).2.2.2.2
    ⟨"C002", "citrus-sparrow-02"⟩ (by decide)
  exact ⟨hok, h.1, h.2.1⟩

/- ------------------------------------------------------------------
C4 — weighted sampling: probability mass and totality.
------------------------------------------------------------------ -/

theorem rat_floor_eq_int_floor (q : ℚ) : Rat.floor q = ⌊q⌋ :=
  (Rat.floor_def' q).trans Rat.floor_def.symm

theorem cumFind_lt_length (scores : List ℚ) : ∀ x : ℚ, 0 ≤ x →
    x < scores.sum → cumFind scores x < scores.length := by
  induction scores with
  | nil =>
      intro x h0 hlt
      simp only [List.sum_nil] at hlt
      exact absurd hlt (not_lt.mpr h0)
  | cons s t ih =>
      intro x h0 hlt
      by_cases hxs : x < s
      · simp [cumFind, hxs]
      · rw [cumFind]
        rw [if_neg hxs]
        have hsx : s ≤ x := not_lt.mp hxs
        have hlt2 : x - s < t.sum := by
          rw [List.sum_cons] at hlt
          linarith
        simpa [List.length_cons] using
          Nat.succ_lt_succ (ih (x - s) (by linarith) hlt2)

theorem cumFind_eq_iff (scores : List ℚ) : ∀ (x : ℚ) (i : ℕ),
    (∀ s ∈ scores, 0 ≤ s) → 0 ≤ x → x < scores.sum →
    (cumFind scores x = i ↔
      (scores.take i).sum ≤ x ∧ x < (scores.take (i + 1)).sum) := by
  induction scores with
  | nil =>
      intro x i _ h0 hlt
      simp only [List.sum_nil] at hlt
      exact absurd hlt (not_lt.mpr h0)
  | cons s t ih =>
      intro x i hnn h0 hlt
      by_cases hxs : x < s
      · cases i with
        | zero =>
            simp only [cumFind, if_pos hxs, List.take_succ_cons, List.take_nil,
              List.sum_cons, List.sum_nil, List.take_zero, add_zero]
            exact iff_of_true trivial ⟨h0, hxs⟩
        | succ j =>
            constructor
            · intro h
              rw [cumFind, if_pos hxs] at h
              cases h
            · rintro ⟨h1, _⟩
              exfalso
              rw [List.take_succ_cons, List.sum_cons] at h1
              have htk : (0 : ℚ) ≤ (t.take j).sum :=
                List.sum_nonneg fun y hy =>
                  hnn y (List.mem_cons_of_mem s (List.mem_of_mem_take hy))
              linarith
      · have hsx : s ≤ x := not_lt.mp hxs
        cases i with
        | zero =>
            constructor
            · intro h
              rw [cumFind, if_neg hxs] at h
              cases h
            · rintro ⟨_, h2⟩
              exfalso
              rw [List.take_succ_cons, List.take_zero, List.sum_cons,
                List.sum_nil, add_zero] at h2
              linarith
        | succ j =>
            have hih := ih (x - s) j
              (fun y hy => hnn y (List.mem_cons_of_mem s hy))
              (by linarith)
              (by rw [List.sum_cons] at hlt; linarith)
            rw [cumFind, if_neg hxs]
            simp only [List.take_succ_cons, List.sum_cons]
            constructor
            · intro h
              have hj : cumFind t (x - s) = j := by omega
              obtain ⟨a, b⟩ := hih.mp hj
              exact ⟨by linarith, by linarith⟩
            · rintro ⟨a, b⟩
              have hj : cumFind t (x - s) = j :=
                hih.mpr ⟨by linarith, by linarith⟩
              omega

/-- C4: on a non-empty candidate list with nonnegative scores and a
uniform draw r ∈ [0,1), the sampler always returns a valid index (in
particular it never divides by zero); when the total score is positive,
index i is selected exactly for the r in the sub-interval of mass
scoreᵢ/Σ scores; when every score is 0, the draw degenerates to uniform
selection, index i being selected exactly on the interval
[i/n, (i+1)/n). -/
theorem weighted_sampling_distribution (scores : List ℚ) (r : ℚ)
    (hnn : ∀ s ∈ scores, 0 ≤ s) (hne : scores ≠ [])
    (hr0 : 0 ≤ r) (hr1 : r < 1) :
    drawIndex scores r < scores.length ∧
    (scores.sum ≠ 0 → ∀ i, i < scores.length →
      (drawIndex scores r = i ↔
        (scores.take i).sum / scores.sum ≤ r ∧
          r < (scores.take (i + 1)).sum / scores.sum) ∧
      (scores.take (i + 1)).sum / scores.sum -
          (scores.take i).sum / scores.sum = scores.getD i 0 / scores.sum) ∧
    ((∀ s ∈ scores, s = 0) → ∀ i, i < scores.length →
      (drawIndex scores r = i ↔
        (i : ℚ) / (scores.length : ℚ) ≤ r ∧
          r < ((i : ℚ) + 1) / (scores.length : ℚ))) := by
  have hsum_nonneg : (0 : ℚ) ≤ scores.sum := List.sum_nonneg hnn
  have hn : 0 < scores.length := List.length_pos.mpr hne
  refine ⟨?_, fun hsum i hi => ⟨?_, ?_⟩, fun hall i hi => ?_⟩
  · by_cases hs0 : scores.sum = 0
    · rw [drawIndex, if_pos hs0]
      have := Nat.min_le_left (scores.length - 1)
        (Rat.floor (r * (scores.length : ℚ))).toNat
      omega
    · rw [drawIndex, if_neg hs0]
      have hpos : (0 : ℚ) < scores.sum := lt_of_le_of_ne hsum_nonneg (Ne.symm hs0)
      exact cumFind_lt_length scores (r * scores.sum)
        (mul_nonneg hr0 hsum_nonneg)
        (by nlinarith)
  · have hpos : (0 : ℚ) < scores.sum := lt_of_le_of_ne hsum_nonneg (Ne.symm hsum)
    rw [drawIndex, if_neg hsum]
    rw [cumFind_eq_iff scores (r * scores.sum) i hnn
      (mul_nonneg hr0 hsum_nonneg) (by nlinarith)]
    constructor
    · rintro ⟨a, b⟩
      exact ⟨(div_le_iff₀ hpos).mpr a, (lt_div_iff₀ hpos).mpr b⟩
    · rintro ⟨a, b⟩
      exact ⟨(div_le_iff₀ hpos).mp a, (lt_div_iff₀ hpos).mp b⟩
  · rw [List.sum_take_succ scores i hi, List.getD_eq_getElem scores 0 hi,
      add_div]
    ring
  · have hsum0 : scores.sum = 0 := List.sum_eq_zero hall
    rw [drawIndex, if_pos hsum0, rat_floor_eq_int_floor]
    have hncast : (0 : ℚ) < (scores.length : ℚ) := by exact_mod_cast hn
    have hz0 : 0 ≤ ⌊r * (scores.length : ℚ)⌋ :=
      Int.floor_nonneg.mpr (mul_nonneg hr0 (le_of_lt hncast))
    have hzn : ⌊r * (scores.length : ℚ)⌋ < (scores.length : ℤ) := by
      apply Int.floor_lt.mpr
      push_cast
      nlinarith
    constructor
    · intro h
      have hz : ⌊r * (scores.length : ℚ)⌋ = (i : ℤ) := by omega
      obtain ⟨ha, hb⟩ := Int.floor_eq_iff.mp hz
      push_cast at ha hb
      exact ⟨(div_le_iff₀ hncast).mpr ha, (lt_div_iff₀ hncast).mpr hb⟩
    · rintro ⟨ha, hb⟩
      rw [div_le_iff₀ hncast] at ha
      rw [lt_div_iff₀ hncast] at hb
      have hz : ⌊r * (scores.length : ℚ)⌋ = (i : ℤ) :=
        Int.floor_eq_iff.mpr ⟨by push_cast; exact ha, by push_cast; exact hb⟩
      omega

/-- C4 witness: the spec's statistical example scores [0.9, 0.05, 0.05]
with the draw r = 1/2. -/
theorem weighted_sampling_distribution_witness :
    drawIndex scoresW (1/2) < scoresW.length :=
  (weighted_sampling_distribution scoresW (1/2)
    (by with_unfolding_all decide) (by decide)
    (by with_unfolding_all decide) (by with_unfolding_all decide)).1

/- ------------------------------------------------------------------
C2 — score bounds and weighted final score.
------------------------------------------------------------------ -/

theorem categoryScore_nonneg {κ : Kern} (hκ : κ.Valid) (cfg : Config)
    (ctxns : List Transaction) (now : ℚ) (cat : String) :
    0 ≤ categoryScore κ cfg ctxns now cat := by
  apply List.sum_nonneg
  intro y hy
  simp only [List.mem_map] at hy
  obtain ⟨t, _, rfl⟩ := hy
  exact mul_nonneg (hκ.1 _) (hκ.2.2 _)

theorem categoryAffinity_bounds {κ : Kern} (hκ : κ.Valid) (cfg : Config)
    (txns : List Transaction) (c : String) (p : Product) (now : ℚ) :
    0 ≤ categoryAffinity κ cfg txns c p now ∧
      categoryAffinity κ cfg txns c p now ≤ 1 := by
  unfold categoryAffinity
  by_cases hm : maxCategoryScore κ cfg (custTxns txns c) now ≤ 0
  · simp [hm]
  · rw [if_neg hm]
    have hmpos : 0 < maxCategoryScore κ cfg (custTxns txns c) now := not_le.mp hm
    have hsle : categoryScore κ cfg (custTxns txns c) now p.category ≤
        maxCategoryScore κ cfg (custTxns txns c) now := by
      by_cases hcmem : p.category ∈ (custTxns txns c).map fun t => t.category
      · exact mem_le_foldr_max 0
          (List.mem_map_of_mem _ (List.mem_dedup.mpr hcmem))
      · have hfil : (custTxns txns c).filter
            (fun t => decide (t.category = p.category)) = [] := by
          rw [List.filter_eq_nil_iff]
          intro t ht hdec
          rw [decide_eq_true_eq] at hdec
          exact hcmem (hdec ▸ List.mem_map_of_mem _ ht)
        have hz : categoryScore κ cfg (custTxns txns c) now p.category = 0 := by
          unfold categoryScore
          rw [hfil]
          rfl
        rw [hz]
        exact le_of_lt hmpos
    exact ⟨div_nonneg (categoryScore_nonneg hκ cfg _ now _) (le_of_lt hmpos),
      (div_le_one hmpos).mpr hsle⟩

theorem repurchaseLikelihood_bounds {κ : Kern} (hκ : κ.Valid) (cfg : Config)
    (txns : List Transaction) (c : String) (p : Product) (now : ℚ) :
    0 ≤ repurchaseLikelihood κ cfg txns c p now ∧
      repurchaseLikelihood κ cfg txns c p now ≤ 1 := by
  simp only [repurchaseLikelihood]
  by_cases h : (productDates (custTxns txns c) p.id).length <
      max cfg.min_purchases 2
  · rw [if_pos h]
    exact ⟨le_refl 0, by norm_num⟩
  · rw [if_neg h]
    refine ⟨hκ.1 _, hκ.2.1 _ ?_⟩
    positivity

theorem eventWeight_nonneg (cfg : Config) (hcfg : cfg.Valid) (ty : String) :
    0 ≤ eventWeight cfg ty := by
  unfold eventWeight
  split_ifs
  · exact hcfg.2.2.1
  · exact hcfg.2.2.2.1
  · exact hcfg.2.2.2.2.1
  · exact le_refl 0

theorem productIntentRaw_nonneg {κ : Kern} (hκ : κ.Valid) {cfg : Config}
    (hcfg : cfg.Valid) (cevs : List InteractionEvent) (now : ℚ)
    (pid : String) : 0 ≤ productIntentRaw κ cfg cevs now pid := by
  apply List.sum_nonneg
  intro y hy
  simp only [List.mem_map] at hy
  obtain ⟨e, _, rfl⟩ := hy
  exact add_nonneg (mul_nonneg hcfg.1 (hκ.1 _))
    (mul_nonneg (sub_nonneg.mpr hcfg.2.1) (eventWeight_nonneg cfg hcfg _))

theorem clickstreamIntent_bounds {κ : Kern} (hκ : κ.Valid) {cfg : Config}
    (hcfg : cfg.Valid) (evs : List InteractionEvent)
    (products : List Product) (c : String) {p : Product} (now : ℚ)
    (hp : p ∈ products) :
    0 ≤ clickstreamIntent κ cfg evs products c p now ∧
      clickstreamIntent κ cfg evs products c p now ≤ 1 := by
  simp only [clickstreamIntent]
  by_cases hm : (products.map fun q => productIntentRaw κ cfg
      (evs.filter fun e => e.customerId = c) now q.id).foldr max 0 ≤ 0
  · rw [if_pos hm]
    exact ⟨le_refl 0, by norm_num⟩
  · rw [if_neg hm]
    have hmpos := not_le.mp hm
    have hle : productIntentRaw κ cfg
        (evs.filter fun e => e.customerId = c) now p.id ≤
        (products.map fun q => productIntentRaw κ cfg
          (evs.filter fun e => e.customerId = c) now q.id).foldr max 0 :=
      mem_le_foldr_max 0 (List.mem_map_of_mem _ hp)
    exact ⟨div_nonneg (productIntentRaw_nonneg hκ hcfg _ now _)
        (le_of_lt hmpos), (div_le_one hmpos).mpr hle⟩

theorem convex_combo_bounds {a b x y : ℚ} (ha : 0 ≤ a) (hb : 0 ≤ b)
    (hab : a + b ≤ 1) (hx : 0 ≤ x ∧ x ≤ 1) (hy : 0 ≤ y ∧ y ≤ 1) :
    0 ≤ a * x + b * y ∧ a * x + b * y ≤ 1 :=
  ⟨add_nonneg (mul_nonneg ha hx.1) (mul_nonneg hb hy.1),
    by nlinarith [hx.1, hx.2, hy.1, hy.2]⟩

theorem productPopularity_bounds {cfg : Config} (hcfg : cfg.Valid)
    (txns : List Transaction) (products : List Product) {p : Product}
    (hp : p ∈ products) :
    0 ≤ productPopularity cfg txns products p ∧
      productPopularity cfg txns products p ≤ 1 := by
  have hcs : ∀ f : String → ℕ,
      0 ≤ (if (products.map fun q => f q.id).foldr max 0 = 0 then (0 : ℚ)
        else (f p.id : ℚ) / (((products.map fun q => f q.id).foldr max 0 : ℕ) : ℚ)) ∧
      (if (products.map fun q => f q.id).foldr max 0 = 0 then (0 : ℚ)
        else (f p.id : ℚ) / (((products.map fun q => f q.id).foldr max 0 : ℕ) : ℚ)) ≤ 1 := by
    intro f
    by_cases h : (products.map fun q => f q.id).foldr max 0 = 0
    · rw [if_pos h]
      exact ⟨le_refl 0, by norm_num⟩
    · rw [if_neg h]
      have hle : f p.id ≤ (products.map fun q => f q.id).foldr max 0 :=
        mem_le_foldr_max 0 (List.mem_map_of_mem _ hp)
      have hpos : (0 : ℚ) <
          (((products.map fun q => f q.id).foldr max 0 : ℕ) : ℚ) := by
        exact_mod_cast Nat.pos_of_ne_zero h
      exact ⟨div_nonneg (Nat.cast_nonneg _) (le_of_lt hpos),
        (div_le_one hpos).mpr (by exact_mod_cast hle)⟩
  simp only [productPopularity]
  exact convex_combo_bounds hcfg.2.2.2.2.2.1 hcfg.2.2.2.2.2.2.1
    hcfg.2.2.2.2.2.2.2 (hcs fun pid => uniqueCustomers txns pid)
    (hcs fun pid => totalQuantity txns pid)

theorem componentOf_scoreBreakdown (κ : Kern) (cfg : Config)
    (txns : List Transaction) (evs : List InteractionEvent)
    (products : List Product) (rand : String → ℚ) (c : String) (p : Product)
    (now : ℚ) :
    componentOf (scoreBreakdown κ cfg txns evs products rand c p now)
        "category_affinity" = categoryAffinity κ cfg txns c p now ∧
    componentOf (scoreBreakdown κ cfg txns evs products rand c p now)
        "repurchase_likelihood" = repurchaseLikelihood κ cfg txns c p now ∧
    componentOf (scoreBreakdown κ cfg txns evs products rand c p now)
        "clickstream_intent" = clickstreamIntent κ cfg evs products c p now ∧
    componentOf (scoreBreakdown κ cfg txns evs products rand c p now)
        "product_popularity" = productPopularity cfg txns products p ∧
    componentOf (scoreBreakdown κ cfg txns evs products rand c p now)
        "exploration" = rand p.id :=
  ⟨rfl, rfl, rfl, rfl, rfl⟩

/-- C2: under a valid kernel and configuration whose weight sum passed
the load-time validation, every one of the five breakdown components
lies in [0,1] for every customer, candidate and evaluation time, and
the final score is exactly the configured weighted sum of the five
components; the validated weight sum is within epsilon of 1. -/
theorem scoring_bounds_and_weighted_sum (κ : Kern) (cfg : Config)
    (products : List Product) (txns : List Transaction)
    (evs : List InteractionEvent) (rand : String → ℚ) (c : String)
    (p : Product) (now : ℚ)
    (hκ : κ.Valid) (hcfg : cfg.Valid) (hload : loadConfig cfg = .ok cfg)
    (hrand : ∀ pid, 0 ≤ rand pid ∧ rand pid ≤ 1) (hp : p ∈ products) :
    (∀ name ∈ componentNames,
      0 ≤ componentOf (scoreBreakdown κ cfg txns evs products rand c p now)
          name ∧
      componentOf (scoreBreakdown κ cfg txns evs products rand c p now)
          name ≤ 1) ∧
    finalScore cfg.weights
        (scoreBreakdown κ cfg txns evs products rand c p now) =
      cfg.weights.category_affinity * categoryAffinity κ cfg txns c p now +
      cfg.weights.repurchase_likelihood *
        repurchaseLikelihood κ cfg txns c p now +
      cfg.weights.clickstream_intent *
        clickstreamIntent κ cfg evs products c p now +
      cfg.weights.product_popularity * productPopularity cfg txns products p +
      cfg.weights.exploration * rand p.id ∧
    |cfg.weights.sum - 1| ≤ weightEpsilon := by
  obtain ⟨e1, e2, e3, e4, e5⟩ :=
    componentOf_scoreBreakdown κ cfg txns evs products rand c p now
  refine ⟨?_, ?_, ?_⟩
  · intro name hname
    simp only [componentNames, List.mem_cons, List.not_mem_nil, or_false] at hname
    rcases hname with rfl | rfl | rfl | rfl | rfl
    · rw [e1]
      exact categoryAffinity_bounds hκ cfg txns c p now
    · rw [e2]
      exact repurchaseLikelihood_bounds hκ cfg txns c p now
    · rw [e3]
      exact clickstreamIntent_bounds hκ hcfg evs products c now hp
    · rw [e4]
      exact productPopularity_bounds hcfg txns products hp
    · rw [e5]
      exact hrand p.id
  · rw [finalScore, e1, e2, e3, e4, e5]
  · unfold loadConfig at hload
    split at hload
    · next hcond => exact hcond
    · exact Except.noConfusion hload

/-- The constant kernel fixture satisfies the kernel axioms. -/
theorem kern0_valid : kern0.Valid := by
  refine ⟨fun x => ?_, fun x _ => ?_, fun q => ?_⟩
  · norm_num [kern0]
  · norm_num [kern0]
  · simp only [kern0]
    positivity

/-- C2 witness: the exploration and popularity components at a
one-product catalog with no history. -/
theorem scoring_bounds_and_weighted_sum_witness :
    0 ≤ componentOf (scoreBreakdown kern0 cfg0 [] [] [prodA]
        (fun _ => 0) "C1" prodA 0) "exploration" ∧
    componentOf (scoreBreakdown kern0 cfg0 [] [] [prodA]
        (fun _ => 0) "C1" prodA 0) "exploration" ≤ 1 :=
  (scoring_bounds_and_weighted_sum kern0 cfg0 [prodA] [] [] (fun _ => 0)
    "C1" prodA 0 kern0_valid
    (by unfold Config.Valid; with_unfolding_all decide)
    (by with_unfolding_all rfl)
    (fun _ => ⟨le_refl 0, by norm_num⟩) (by simp)).1
    "exploration" (by decide)

/- ------------------------------------------------------------------
C1 — complete breakdown or explicit absence.
------------------------------------------------------------------ -/

/-- C1: every invocation yields either an explicit `none` or a
Recommendation whose score breakdown carries exactly the five named
components; a component whose signal is empty scores 0 (no purchases —
category affinity and repurchase likelihood; no events for the
customer — clickstream intent; no transactions at all — popularity). -/
theorem breakdown_complete_or_absent (κ : Kern) (cfg : Config)
    (products : List Product) (txns : List Transaction)
    (evs : List InteractionEvent) (rand : String → ℚ)
    (shown : List ShownEntry) (c : String) (p : Product) (now r : ℚ) :
    (scoreBreakdown κ cfg txns evs products rand c p now).map Prod.fst =
      componentNames ∧
    (custTxns txns c = [] →
      componentOf (scoreBreakdown κ cfg txns evs products rand c p now)
        "category_affinity" = 0 ∧
      componentOf (scoreBreakdown κ cfg txns evs products rand c p now)
        "repurchase_likelihood" = 0) ∧
    (evs.filter (fun e => e.customerId = c) = [] →
      componentOf (scoreBreakdown κ cfg txns evs products rand c p now)
        "clickstream_intent" = 0) ∧
    (txns = [] →
      componentOf (scoreBreakdown κ cfg txns evs products rand c p now)
        "product_popularity" = 0) ∧
    (∀ rec shownNext,
      recommend_product κ cfg products txns evs rand shown c now r =
        some (rec, shownNext) →
      rec.score_components.map Prod.fst = componentNames) := by
  obtain ⟨e1, e2, e3, e4, e5⟩ :=
    componentOf_scoreBreakdown κ cfg txns evs products rand c p now
  refine ⟨rfl, fun hct => ⟨?_, ?_⟩, fun hev => ?_, fun htx => ?_,
    fun rec shownNext hrec => ?_⟩
  · rw [e1]
    unfold categoryAffinity
    rw [hct]
    have hm : maxCategoryScore κ cfg [] now ≤ 0 := le_of_eq rfl
    simp only [maxCategoryScore, List.map_nil, List.dedup_nil]
    rfl
  · rw [e2]
    simp only [repurchaseLikelihood]
    rw [if_pos]
    rw [hct]
    have : productDates [] p.id = [] := rfl
    rw [this]
    simp only [List.length_nil]
    omega
  · rw [e3]
    simp only [clickstreamIntent]
    rw [if_pos]
    apply foldr_max_le 0 (le_refl 0)
    intro x hx
    simp only [List.mem_map] at hx
    obtain ⟨q, _, rfl⟩ := hx
    rw [hev]
    exact le_of_eq rfl
  · rw [e4]
    subst htx
    simp only [productPopularity]
    have hU : (products.map fun q => uniqueCustomers [] q.id).foldr max 0
        = 0 := by
      apply Nat.le_antisymm
      · apply foldr_max_le 0 (le_refl 0)
        intro x hx
        simp only [List.mem_map] at hx
        obtain ⟨q, _, rfl⟩ := hx
        exact le_of_eq rfl
      · exact Nat.zero_le _
    have hQ : (products.map fun q => totalQuantity [] q.id).foldr max 0
        = 0 := by
      apply Nat.le_antisymm
      · apply foldr_max_le 0 (le_refl 0)
        intro x hx
        simp only [List.mem_map] at hx
        obtain ⟨q, _, rfl⟩ := hx
        exact le_of_eq rfl
      · exact Nat.zero_le _
    rw [if_pos hU, if_pos hQ]
    simp
  · simp only [recommend_product] at hrec
    split at hrec
    · exact Option.noConfusion hrec
    · injection hrec with h
      injection h with h1 _
      rw [← h1]
      rfl

/-- C1 witness: the empty-history instance — every empty-signal
component is 0 and the breakdown still lists all five components. -/
theorem breakdown_complete_or_absent_witness :
    (scoreBreakdown kern0 cfg0 [] [] [prodA] (fun _ => 0)
      "C1" prodA 0).map Prod.fst = componentNames ∧
    componentOf (scoreBreakdown kern0 cfg0 [] [] [prodA] (fun _ => 0)
      "C1" prodA 0) "category_affinity" = 0 ∧
    componentOf (scoreBreakdown kern0 cfg0 [] [] [prodA] (fun _ => 0)
      "C1" prodA 0) "clickstream_intent" = 0 ∧
    componentOf (scoreBreakdown kern0 cfg0 [] [] [prodA] (fun _ => 0)
      "C1" prodA 0) "product_popularity" = 0 := by
  have h := breakdown_complete_or_absent kern0 cfg0 [prodA] [] []
    (fun _ => 0) [] "C1" prodA 0 0
  exact ⟨h.1, (h.2.1 rfl).1, h.2.2.1 rfl, h.2.2.2.1 rfl⟩

/- ------------------------------------------------------------------
C3 — no repetition within the shown-decay window.
------------------------------------------------------------------ -/

theorem selectProduct_shape (cfg : Config) (shown : List ShownEntry)
    (scored : List (Product × ℚ)) (now r : ℚ) (p : Product)
    (s2 : List ShownEntry)
    (h : selectProduct cfg shown scored now r = some (p, s2)) :
    s2 = shown ++ [⟨p.id, now⟩] ∧
    p ∈ (if (freshCands cfg shown scored now).isEmpty then
        topCands cfg scored else freshCands cfg shown scored now).map
        Prod.fst := by
  simp only [selectProduct] at h
  split at h
  · exact Option.noConfusion h
  · next q rest heq =>
      injection h with h'
      injection h' with h1 h2
      constructor
      · rw [← h2, ← h1]
      · rw [← h1, heq]
        exact List.mem_map_of_mem _
          (getD_mem_of_default_mem (List.mem_cons_self q rest) _)

/-- C3: two successive selector invocations for the same customer with
identical scored candidates, the second within the shown-decay window
of the first, never pick the same product as long as the
top-K-minus-shown set of the second call is non-empty (otherwise the
fallback applies); the first call appends its selection to the
ShownRecord before returning, which is what excludes it at the second
call. -/
theorem selector_no_repeat (cfg : Config) (shown : List ShownEntry)
    (scored : List (Product × ℚ)) (t1 t2 r1 r2 : ℚ)
    (p1 p2 : Product) (s1 s2 : List ShownEntry)
    (h1 : selectProduct cfg shown scored t1 r1 = some (p1, s1))
    (h2 : selectProduct cfg s1 scored t2 r2 = some (p2, s2))
    (hwin : t2 - t1 < cfg.shown_decay_hours)
    (hfresh : freshCands cfg s1 scored t2 ≠ []) :
    p2.id ≠ p1.id := by
  obtain ⟨hs1, _⟩ := selectProduct_shape cfg shown scored t1 r1 p1 s1 h1
  obtain ⟨_, hmem2⟩ := selectProduct_shape cfg s1 scored t2 r2 p2 s2 h2
  rw [if_neg (by simpa [List.isEmpty_iff] using hfresh)] at hmem2
  simp only [List.mem_map] at hmem2
  obtain ⟨pq, hpq, rfl⟩ := hmem2
  unfold freshCands at hpq
  rw [List.mem_filter] at hpq
  intro heq
  have hshown : shownRecently cfg s1 t2 pq.1.id = true := by
    unfold shownRecently
    apply List.any_eq_true.mpr
    refine ⟨⟨p1.id, t1⟩, ?_, ?_⟩
    · rw [hs1]
      simp
    · simp only [decide_eq_true_eq]
      exact ⟨heq.symm, hwin⟩
  simp [hshown] at hpq

/-- C3 witness: two successive fixture selections return different
products; the first selection is recorded in the shown list before the
call returns. -/
theorem selector_no_repeat_witness :
    selectProduct cfg0 [] scoredW 0 0 = some (prodA, shownW1) ∧
    selectProduct cfg0 shownW1 scoredW 1 0 =
      some (prodB, shownW1 ++ [⟨"B", 1⟩]) ∧
    prodB.id ≠ prodA.id := by
  have e1 : selectProduct cfg0 [] scoredW 0 0 = some (prodA, shownW1) := by
    with_unfolding_all decide
  have e2 : selectProduct cfg0 shownW1 scoredW 1 0 =
      some (prodB, shownW1 ++ [⟨"B", 1⟩]) := by
    with_unfolding_all decide
  exact ⟨e1, e2, selector_no_repeat cfg0 [] scoredW 0 1 0 0 prodA prodB
    shownW1 (shownW1 ++ [⟨"B", 1⟩]) e1 e2 (by with_unfolding_all decide)
    (by with_unfolding_all decide)⟩
